/-
Verification of the fllume agent library (src/fllume/agent.py) against its
natural-language specification.

The development shallowly embeds the Agent / AgentBuilder code: the provider
adapter (`any_llm.completion`) is modelled as a finite script of responses
(one assistant message per round for the non-streaming path, one list of
fragment deltas per round for the streaming path), and each run records the
message list sent to the provider at every round, so that the observable
transcript of provider interactions can be compared between the two paths.

Python exceptions are modelled with `Except`; the spec's error taxonomy
(TemplateError, ToolResolutionError, StreamProtocolError, ...) names the
concrete Python exceptions raised at the corresponding places (ValueError /
KeyError from str.format, KeyError on the tool registry, AssertionError in
the stream loop, json.JSONDecodeError).  Logging (`logger.debug`) is a side
effect with no observable influence on results and is not modelled.
-/
import Mathlib

namespace Fllume

/-! ## JSON argument payloads

`json.loads` is the Python standard library; the embedding implements the
flat fragment of JSON the tool-argument payloads of this library use:
objects, arrays and scalars whose values are (escape-free) strings,
integers, booleans and null.  Error messages of `json.JSONDecodeError` are
abstracted to short tags; the claims depend only on whether decoding
raises, never on the message text. -/

inductive JVal where
  | jstr (s : String)
  | jnum (n : Int)
  | jbool (b : Bool)
  | jnull
deriving DecidableEq, Repr

inductive JTop where
  | obj (kvs : List (String × JVal))
  | arr (xs : List JVal)
  | scalar (v : JVal)
deriving DecidableEq, Repr

def lbrace : Char := Char.ofNat 123

def rbrace : Char := Char.ofNat 125

def isWsChar (c : Char) : Bool := c = ' ' || c = '\t' || c = '\n' || c = '\r'

def skipWs (cs : List Char) : List Char := cs.dropWhile isWsChar

def parseJString : List Char → Option (String × List Char)
  | [] => none
  | c :: rest =>
    if c = '"' then some ("", rest)
    else if c = '\\' then none
    else (parseJString rest).map (fun p => (String.singleton c ++ p.1, p.2))

def digitsToNat (ds : List Char) : Nat :=
  ds.foldl (fun n c => n * 10 + (c.toNat - 48)) 0

def parseJNum (cs : List Char) : Option (Int × List Char) :=
  match cs with
  | '-' :: rest =>
    let ds := rest.takeWhile Char.isDigit
    if ds.isEmpty then none
    else some (-(Int.ofNat (digitsToNat ds)), rest.dropWhile Char.isDigit)
  | _ =>
    let ds := cs.takeWhile Char.isDigit
    if ds.isEmpty then none
    else some (Int.ofNat (digitsToNat ds), cs.dropWhile Char.isDigit)

def parseJVal (cs : List Char) : Option (JVal × List Char) :=
  match skipWs cs with
  | [] => none
  | c :: rest =>
    if c = '"' then (parseJString rest).map (fun p => (JVal.jstr p.1, p.2))
    else if c = 't' then
      match rest with
      | 'r' :: 'u' :: 'e' :: r => some (JVal.jbool true, r)
      | _ => none
    else if c = 'f' then
      match rest with
      | 'a' :: 'l' :: 's' :: 'e' :: r => some (JVal.jbool false, r)
      | _ => none
    else if c = 'n' then
      match rest with
      | 'u' :: 'l' :: 'l' :: r => some (JVal.jnull, r)
      | _ => none
    else (parseJNum (c :: rest)).map (fun p => (JVal.jnum p.1, p.2))

def parseJMembers : Nat → List Char → Option (List (String × JVal) × List Char)
  | 0, _ => none
  | fuel + 1, cs =>
    match skipWs cs with
    | '"' :: rest =>
      match parseJString rest with
      | none => none
      | some (k, r1) =>
        match skipWs r1 with
        | ':' :: r2 =>
          match parseJVal r2 with
          | none => none
          | some (v, r3) =>
            match skipWs r3 with
            | ',' :: r4 =>
              (parseJMembers fuel r4).map (fun p => ((k, v) :: p.1, p.2))
            | c :: r4 => if c = rbrace then some ([(k, v)], r4) else none
            | [] => none
        | _ => none
    | _ => none

def parseJElems : Nat → List Char → Option (List JVal × List Char)
  | 0, _ => none
  | fuel + 1, cs =>
    match parseJVal cs with
    | none => none
    | some (v, r1) =>
      match skipWs r1 with
      | ',' :: r2 => (parseJElems fuel r2).map (fun p => (v :: p.1, p.2))
      | ']' :: r2 => some ([v], r2)
      | _ => none

def parseJTop (cs : List Char) : Option (JTop × List Char) :=
  match skipWs cs with
  | [] => none
  | c :: rest =>
    if c = lbrace then
      match skipWs rest with
      | c2 :: r2 =>
        if c2 = rbrace then some (JTop.obj [], r2)
        else (parseJMembers (rest.length + 1) rest).map
          (fun p => (JTop.obj p.1, p.2))
      | [] => none
    else if c = '[' then
      match skipWs rest with
      | ']' :: r2 => some (JTop.arr [], r2)
      | _ => (parseJElems (rest.length + 1) rest).map
          (fun p => (JTop.arr p.1, p.2))
    else (parseJVal (c :: rest)).map (fun p => (JTop.scalar p.1, p.2))

/-- Embedding of `json.loads` on the flat JSON fragment described above.
`Except.error` is Python's `json.JSONDecodeError` (which propagates to the
raiser's caller like any exception). -/
def jsonLoads (s : String) : Except String JTop :=
  match parseJTop s.data with
  | none => .error "Expecting value"
  | some (t, rest) => if (skipWs rest).isEmpty then .ok t else .error "Extra data"

/-! ## Prompt templates

`str.format(**mapping)` is the Python standard library; the embedding
implements the fragment the prompt templates of this library use: literal
text, doubled braces as escapes, and named placeholders of identifier form
(no conversions, no format specs, no positional/auto-numbered fields).
Templates outside this fragment fail to parse (`parseTemplate = none`),
matching Python's ValueError on malformed format strings. -/

inductive TPart where
  | lit (s : String)
  | var (name : String)
deriving DecidableEq, Repr

def isIdentChar (c : Char) : Bool := c.isAlphanum || c = '_'

def parseTemplateAux : Nat → List Char → Option (List TPart)
  | 0, _ => none
  | _ + 1, [] => some []
  | fuel + 1, c :: rest =>
    if c = lbrace then
      match rest with
      | c2 :: rest2 =>
        if c2 = lbrace then
          (parseTemplateAux fuel rest2).map
            (fun ps => TPart.lit (String.singleton lbrace) :: ps)
        else
          let name := (c2 :: rest2).takeWhile isIdentChar
          match (c2 :: rest2).dropWhile isIdentChar with
          | c3 :: rest4 =>
            if c3 = rbrace && !name.isEmpty && !(name.all Char.isDigit) then
              (parseTemplateAux fuel rest4).map
                (fun ps => TPart.var (String.mk name) :: ps)
            else none
          | [] => none
      | [] => none
    else if c = rbrace then
      match rest with
      | c2 :: rest2 =>
        if c2 = rbrace then
          (parseTemplateAux fuel rest2).map
            (fun ps => TPart.lit (String.singleton rbrace) :: ps)
        else none
      | [] => none
    else
      (parseTemplateAux fuel rest).map (fun ps => TPart.lit (String.singleton c) :: ps)

def parseTemplate (s : String) : Option (List TPart) :=
  parseTemplateAux (s.length + 1) s.data

/-- The placeholder names a parsed template references, in order. -/
def referencedVars (parts : List TPart) : List String :=
  parts.filterMap (fun p => match p with | .var n => some n | .lit _ => none)

def lookupStr (k : String) : List (String × String) → Option String
  | [] => none
  | (k2, v) :: rest => if k2 == k then some v else lookupStr k rest

/-! ## Error taxonomy

Each constructor names the concrete Python exception raised at the
corresponding program point (see the per-constructor comments).
`providerExhausted` is an artifact of the finite provider script of the
embedding, not a behaviour of the code: it marks runs whose script supplies
fewer rounds than the tool-resolution loop requests. -/

inductive AgentError where
  /-- ValueError "A dict prompt was provided, but the agent has no prompt_template." -/
  | templateNotConfigured
  /-- KeyError raised by `str.format` for a placeholder missing from the mapping. -/
  | templateMissingKey (key : String)
  /-- ValueError raised by `str.format` on a malformed format string. -/
  | templateMalformed
  /-- KeyError raised by `tool_dict[tool_call.function.name]` in `_call_tools`. -/
  | toolResolutionError (name : String)
  /-- json.JSONDecodeError raised by `json.loads` in `_call_tools`. -/
  | jsonDecodeError (msg : String)
  /-- AssertionError raised in `_stream_messages` when a content chunk arrives
  after tool-call accumulation has started. -/
  | streamProtocolError
  /-- IndexError raised in `_stream_messages` when a tool-call fragment's index
  exceeds the number of accumulated tool calls. -/
  | streamIndexError
  /-- Artifact of the finite provider script (see section comment). -/
  | providerExhausted
deriving DecidableEq, Repr

/-- Rendering of a parsed template against a mapping: the substitution
performed by `str.format(**mapping)` (placeholders replaced by the mapped
value, first missing placeholder raises KeyError). -/
def renderParts (parts : List TPart) (kvs : List (String × String)) :
    Except AgentError String :=
  match parts with
  | [] => .ok ""
  | .lit s :: rest => (renderParts rest kvs).map (fun r => s ++ r)
  | .var n :: rest =>
    match lookupStr n kvs with
    | none => .error (.templateMissingKey n)
    | some v => (renderParts rest kvs).map (fun r => v ++ r)

/-- Embedding of `template.format(**mapping)`. -/
def formatStr (template : String) (kvs : List (String × String)) :
    Except AgentError String :=
  match parseTemplate template with
  | none => .error .templateMalformed
  | some parts => renderParts parts kvs

/-! ## Data model

One uniform `Message` record covers the plain dict messages
(system / user / tool) and the provider's `ChatCompletionMessage`
(assistant, possibly with tool calls): the `model_dump` conversion in
`complete_with_context` is the identity under this embedding.  Absent
fields are `none` / `[]`. -/

/-- Embedding of `ChatCompletionMessageFunctionToolCall`: id, function name and raw
argument payload (`type` is the constant "function" and is omitted). -/
structure ToolCall where
  id : String
  name : String
  arguments : String
deriving DecidableEq, Repr

structure Message where
  role : String
  content : Option String
  tool_calls : List ToolCall
  tool_call_id : Option String
deriving DecidableEq, Repr

/-- A registered tool: a Python callable with its `__name__`.  Calling the
function with keyword arguments (`tool_function(**arguments)`) is `fn`;
`Except.error e` models the call raising an exception whose `str()` is `e`
(this includes TypeError on keyword/parameter mismatch).  The `str()`
conversion `_execute_tool_call` applies to the return value is absorbed
into the String result. -/
structure Tool where
  name : String
  fn : List (String × JVal) → Except String String

/-- Python truthiness of an `Optional[str]`: `None` and `""` are falsy. -/
def strTruthy : Option String → Bool
  | none => false
  | some s => !(s == "")

structure Agent where
  model : String
  tools : List Tool
  response_format : Option Unit
  prompt_template : Option String
  params : List (String × String)
  instructions : String

/-- Embedding of `Agent._build_instructions`: base persona (caller-supplied or default),
then the tool-use sentence if tools are configured, then the JSON-output
sentence (phrased per tool presence) if a response format is configured,
joined with single spaces.  (`if self.tools` / `if self.response_format`
are truthiness tests: the empty tool list is falsy; a configured response
format is modelled as `some ()`.) -/
def buildInstructions (tools : List Tool) (response_format : Option Unit)
    (instructions : Option String) : String :=
  let base :=
    match instructions with
    | some s => s
    | none => "You are a helpful and concise assistant."
  let parts := [base]
    ++ (if tools.isEmpty then [] else ["Use tools when relevant or requested."])
    ++ (match response_format with
        | none => []
        | some _ =>
          if tools.isEmpty then
            ["You must output your response in a JSON format."]
          else
            ["When you are finished with tool calls, your final response must be in a JSON format."])
  String.intercalate " " parts

/-- Embedding of `Agent.__init__`: `tools`/`params` default to fresh empty containers
when `None`; the effective instructions are derived once. -/
def mkAgent (model : String) (instructions : Option String)
    (tools : Option (List Tool)) (response_format : Option Unit)
    (prompt_template : Option String) (params : Option (List (String × String))) :
    Agent :=
  let ts := tools.getD []
  { model := model
    tools := ts
    response_format := response_format
    prompt_template := prompt_template
    params := params.getD []
    instructions := buildInstructions ts response_format instructions }

/-! ## AgentBuilder -/

/-- The AssertionError raised by `AgentBuilder.build` when no model is set
(the spec's ConfigurationError). -/
structure ConfigurationError where
  msg : String
deriving DecidableEq, Repr

structure AgentBuilder where
  model : Option String
  instructions : Option String
  response_format : Option Unit
  prompt_template : Option String
  params : List (String × String)
  tools : List Tool

/-- Embedding of `AgentBuilder.__init__` (the `agent_cls` indirection always receives the
`Agent` class and is not modelled). -/
def AgentBuilder.new : AgentBuilder :=
  { model := none, instructions := none, response_format := none
    prompt_template := none, params := [], tools := [] }

def AgentBuilder.build (b : AgentBuilder) : Except ConfigurationError Agent :=
  match b.model with
  | none => .error ⟨"Model must be specified"⟩
  | some m =>
    .ok (mkAgent m b.instructions (some b.tools) b.response_format
      b.prompt_template (some b.params))

def AgentBuilder.with_model (b : AgentBuilder) (m : String) : AgentBuilder :=
  { b with model := some m }

def AgentBuilder.with_instructions (b : AgentBuilder) (i : String) : AgentBuilder :=
  { b with instructions := some i }

def AgentBuilder.with_tools (b : AgentBuilder) (ts : List Tool) : AgentBuilder :=
  { b with tools := ts }

def AgentBuilder.with_response_format (b : AgentBuilder) (rf : Unit) : AgentBuilder :=
  { b with response_format := some rf }

def AgentBuilder.with_prompt_template (b : AgentBuilder) (t : String) : AgentBuilder :=
  { b with prompt_template := some t }

def AgentBuilder.with_params (b : AgentBuilder) (ps : List (String × String)) :
    AgentBuilder :=
  { b with params := ps }

/-! ## Prompt construction -/

/-- The `prompt` argument: `Union[str, dict[str, Any], None]` (mapping
values are their `str()` forms). -/
inductive PromptArg where
  | none
  | str (s : String)
  | map (kvs : List (String × String))
deriving DecidableEq, Repr

def systemMessage (instructions : String) : Message :=
  ⟨"system", some instructions, [], Option.none⟩

/-- Embedding of `Agent._build_user_message`: a dict prompt requires a truthy
`prompt_template` (ValueError otherwise) and is rendered through
`str.format`; the message list is `[{role: user, content: s}]` when the
resulting string is truthy, `[]` otherwise. -/
def buildUserMessage (agent : Agent) (prompt : PromptArg) :
    Except AgentError (List Message) :=
  match prompt with
  | .map kvs =>
    if strTruthy agent.prompt_template then
      match formatStr (agent.prompt_template.getD "") kvs with
      | .error e => .error e
      | .ok s => .ok (if s == "" then [] else [⟨"user", some s, [], Option.none⟩])
    else .error .templateNotConfigured
  | .str s => .ok (if s == "" then [] else [⟨"user", some s, [], Option.none⟩])
  | .none => .ok []

/-! ## Tool execution -/

/-- Embedding of `Agent._execute_tool_call`: runs the tool inside `try/except`.  The
non-mapping case is the TypeError `tool_function(**arguments)` raises when
the deserialized payload is not a mapping — it happens inside the `try`,
so it, too, becomes error content (the CPython message text is abbreviated). -/
def executeToolCall (fn : List (String × JVal) → Except String String)
    (args : JTop) : String :=
  match args with
  | .obj kvs =>
    match fn kvs with
    | .ok content => content
    | .error e => "Error executing tool: " ++ e
  | _ => "Error executing tool: " ++ "argument after ** must be a mapping"

/-- Embedding of `tool_dict = {tool.__name__: tool for tool in self.tools}` followed by
lookup: the dict comprehension lets the last tool with a given name win. -/
def toolLookup (tools : List Tool) (name : String) : Option Tool :=
  tools.reverse.find? (fun t => t.name == name)

/-- One element of the `_call_tools` list comprehension, in Python
evaluation order: registry lookup (KeyError propagates), then `json.loads`
(JSONDecodeError propagates), then `_execute_tool_call` (total). -/
def resolveToolCall (agent : Agent) (tc : ToolCall) : Except AgentError Message :=
  match toolLookup agent.tools tc.name with
  | none => .error (.toolResolutionError tc.name)
  | some tool =>
    match jsonLoads tc.arguments with
    | .error e => .error (.jsonDecodeError e)
    | .ok args =>
      .ok ⟨"tool", some (executeToolCall tool.fn args), [], some tc.id⟩

/-- Embedding of `Agent._call_tools`: the comprehension materialises one tool message per
tool call, left to right, stopping at the first raised exception. -/
def callTools (agent : Agent) : List ToolCall → Except AgentError (List Message)
  | [] => .ok []
  | tc :: rest =>
    match resolveToolCall agent tc with
    | .error e => .error e
    | .ok msg =>
      match callTools agent rest with
      | .error e => .error e
      | .ok msgs => .ok (msg :: msgs)

/-! ## Non-streaming conversation loop

The provider is a finite script of assistant messages, one per round.  A
run result records the `messages=` list sent at every provider invocation
(the observable provider-boundary transcript) together with the returned
context. -/

structure RunResult where
  calls : List (List Message)
  context : List Message
deriving DecidableEq, Repr

/-- Embedding of `Agent._handle_tool_calls` (non-streaming).  The recursive
`complete_with_context(context + tool_messages, stream=stream)` call is
inlined to make the recursion structural over the provider script: its
context argument is not `None` and its prompt is `None`, so it builds an
empty user message, sends `context + tool_messages` to the provider, and
recurses into `_handle_tool_calls` on the next scripted round. -/
def handleToolCalls (agent : Agent) (script : List Message) (message : Message)
    (context : List Message) : Except AgentError RunResult :=
  if message.tool_calls.isEmpty then .ok ⟨[], context ++ [message]⟩
  else
    match callTools agent message.tool_calls with
    | .error e => .error e
    | .ok toolMessages =>
      match script with
      | [] => .error .providerExhausted
      | m2 :: rest =>
        match handleToolCalls agent rest m2 ((context ++ [message]) ++ toolMessages) with
        | .error e => .error e
        | .ok r => .ok ⟨((context ++ [message]) ++ toolMessages) :: r.calls, r.context⟩

/-- The `if context is None` prelude of `complete_with_context`. -/
def defaultContext (agent : Agent) : Option (List Message) → List Message
  | Option.none => [systemMessage agent.instructions]
  | some c => c

/-- The body of `Agent.complete_with_context` (non-streaming) after the
context default: build the user message from the prompt, send
`context + user_message` to the provider — and hand the provider's message
together with the **original** `context` (without the user message) to
`_handle_tool_calls`. -/
def completeWithContextGo (agent : Agent) (script : List Message)
    (ctx : List Message) (prompt : PromptArg) : Except AgentError RunResult :=
  match buildUserMessage agent prompt with
  | .error e => .error e
  | .ok userMessage =>
    match script with
    | [] => .error .providerExhausted
    | m :: rest =>
      match handleToolCalls agent rest m ctx with
      | .error e => .error e
      | .ok r => .ok ⟨(ctx ++ userMessage) :: r.calls, r.context⟩

/-- Embedding of `Agent.complete_with_context` (non-streaming). -/
def completeWithContext (agent : Agent) (script : List Message)
    (context : Option (List Message)) (prompt : PromptArg) :
    Except AgentError RunResult :=
  completeWithContextGo agent script (defaultContext agent context) prompt

/-- Embedding of `Agent._get_final_response` for an agent without a configured
`response_format`: the terminal message's raw content. -/
def getFinalResponse (ctx : List Message) : Option String :=
  match ctx.getLast? with
  | some m => m.content
  | Option.none => Option.none

/-- Embedding of `Agent.complete` (non-streaming, no response format): fresh context,
then extract the final response. -/
def complete (agent : Agent) (script : List Message) (prompt : PromptArg) :
    Except AgentError (Option String) :=
  match completeWithContext agent script Option.none prompt with
  | .error e => .error e
  | .ok r => .ok (getFinalResponse r.context)

/-! ## Streaming conversation loop

A streaming provider round is a list of fragment deltas
(`chunk.choices[0].delta`): optional content text plus partial tool-call
deltas keyed by a zero-based index.  The streaming provider script holds
one such list per round.  A drained stream is the list of yielded deltas
plus, as for the non-streaming run, the record of provider invocations. -/

structure ToolCallDelta where
  index : Nat
  id : String
  name : String
  arguments : String
deriving DecidableEq, Repr

structure Delta where
  content : Option String
  tool_calls : List ToolCallDelta
deriving DecidableEq, Repr

structure StreamResult where
  calls : List (List Message)
  yielded : List Delta
deriving DecidableEq, Repr

/-- One step of the `for tool_call_delta in delta.tool_calls` loop: an index
equal to the current count appends the delta as a new entry; an existing
index concatenates onto that entry's argument accumulator; an index beyond
the count raises IndexError. -/
def mergeOne (acc : List ToolCallDelta) (tcd : ToolCallDelta) :
    Except AgentError (List ToolCallDelta) :=
  if tcd.index = acc.length then .ok (acc ++ [tcd])
  else
    match acc.get? tcd.index with
    | some existing =>
      .ok (acc.set tcd.index { existing with arguments := existing.arguments ++ tcd.arguments })
    | Option.none => .error .streamIndexError

def mergeToolCallDeltas (acc : List ToolCallDelta) (ds : List ToolCallDelta) :
    Except AgentError (List ToolCallDelta) :=
  match ds with
  | [] => .ok acc
  | tcd :: rest =>
    match mergeOne acc tcd with
    | .error e => .error e
    | .ok acc2 => mergeToolCallDeltas acc2 rest

/-- The `for chunk in completions` loop of `_stream_messages`: asserts that
no truthy content arrives once tool calls have accumulated, folds tool-call
deltas into the accumulator, and yields every delta that carries no
tool-call data.  Returns the yielded deltas and the final accumulator. -/
def streamLoop (acc : List ToolCallDelta) :
    List Delta → Except AgentError (List Delta × List ToolCallDelta)
  | [] => .ok ([], acc)
  | d :: rest =>
    if strTruthy d.content && !acc.isEmpty then .error .streamProtocolError
    else if d.tool_calls.isEmpty then
      match streamLoop acc rest with
      | .error e => .error e
      | .ok (ys, acc2) => .ok (d :: ys, acc2)
    else
      match mergeToolCallDeltas acc d.tool_calls with
      | .error e => .error e
      | .ok acc2 => streamLoop acc2 rest

/-- Completion of the accumulated deltas into
`ChatCompletionMessageFunctionToolCall` values. -/
def finalizeToolCalls (acc : List ToolCallDelta) : List ToolCall :=
  acc.map (fun tc => ⟨tc.id, tc.name, tc.arguments⟩)

/-- Embedding of `Agent._stream_messages`, drained: run the chunk loop; if tool calls
accumulated, synthesize the assistant message (content `None`) and continue
via `_handle_tool_calls(message, context, stream=True)` — whose body is
inlined here exactly as in the non-streaming `handleToolCalls` (the
synthetic message's tool-call list is never empty at this point, and the
recursive `complete_with_context(context + [message] + tool_messages,
stream=True)` sends that list to the provider and delegates to
`_stream_messages` on the next scripted round). -/
def streamMessages (agent : Agent) (script : List (List Delta))
    (chunks : List Delta) (context : List Message) :
    Except AgentError StreamResult :=
  match streamLoop [] chunks with
  | .error e => .error e
  | .ok (ys, acc) =>
    if acc.isEmpty then .ok ⟨[], ys⟩
    else
      match callTools agent (finalizeToolCalls acc) with
      | .error e => .error e
      | .ok toolMessages =>
        match script with
        | [] => .error .providerExhausted
        | chunks2 :: rest =>
          match streamMessages agent rest chunks2
              ((context ++ [⟨"assistant", Option.none, finalizeToolCalls acc, Option.none⟩])
                ++ toolMessages) with
          | .error e => .error e
          | .ok r =>
            .ok ⟨((context ++ [⟨"assistant", Option.none, finalizeToolCalls acc, Option.none⟩])
                ++ toolMessages) :: r.calls, ys ++ r.yielded⟩

/-- The body of `Agent.complete_with_context` with `stream=True` after the
context default: same context and user-message handling as the
non-streaming variant, returning the drained `_stream_messages` generator
(which again receives the original `context` without the user message). -/
def streamCompleteWithContextGo (agent : Agent) (script : List (List Delta))
    (ctx : List Message) (prompt : PromptArg) : Except AgentError StreamResult :=
  match buildUserMessage agent prompt with
  | .error e => .error e
  | .ok userMessage =>
    match script with
    | [] => .error .providerExhausted
    | chunks :: rest =>
      match streamMessages agent rest chunks ctx with
      | .error e => .error e
      | .ok r => .ok ⟨(ctx ++ userMessage) :: r.calls, r.yielded⟩

/-- Embedding of `Agent.complete_with_context` with `stream=True`. -/
def streamCompleteWithContext (agent : Agent) (script : List (List Delta))
    (context : Option (List Message)) (prompt : PromptArg) :
    Except AgentError StreamResult :=
  streamCompleteWithContextGo agent script (defaultContext agent context) prompt

/-- Embedding of `Agent._stream_content`: the second-level stream that keeps only the
fragments whose content is not `None`. -/
def streamContent (ds : List Delta) : List String :=
  ds.filterMap (fun d => d.content)

/-! ## Fragmentations

The refinement claim compares a non-streaming provider round against a
streaming round that "emits the same logical assistant output".
`fragmentsOfB m chunks` decides that the fragment list `chunks` is such an
emission of the assistant message `m`: for a message without tool calls the
chunks carry no tool-call data and their content concatenates to the
message's content; for a message with tool calls (whose content is absent —
content and tool calls are mutually exclusive per the data model) the
chunks merge cleanly into exactly the message's tool calls and carry no
truthy content. -/

def contentOfLast (ctx : List Message) : String :=
  match ctx.getLast? with
  | some m => m.content.getD ""
  | Option.none => ""

def fragmentsOfB (m : Message) (chunks : List Delta) : Bool :=
  m.role == "assistant" && m.tool_call_id == Option.none &&
    match streamLoop [] chunks with
    | .error _ => false
    | .ok (ys, acc) =>
      if m.tool_calls.isEmpty then
        acc.isEmpty && (String.join (streamContent ys) == m.content.getD "")
      else
        m.content == Option.none && (finalizeToolCalls acc == m.tool_calls) &&
          ys.all (fun d => !(strTruthy d.content))

/-- Pointwise fragmentation of a whole provider script. -/
def fragScriptB : List Message → List (List Delta) → Bool
  | [], [] => true
  | m :: ms, cs :: css => fragmentsOfB m cs && fragScriptB ms css
  | _, _ => false

/-! ## Concrete fixtures for witnesses and counterexamples -/

/-- A tool that succeeds on the single string keyword `x` and raises
(TypeError on parameter mismatch) otherwise. -/
def echoTool : Tool :=
  ⟨"echo", fun kvs =>
    match kvs with
    | [("x", JVal.jstr v)] => .ok ("echo " ++ v)
    | _ => .error "echo() got unexpected arguments"⟩

/-- A tool that always raises. -/
def boomTool : Tool := ⟨"boom", fun _ => .error "boom failed"⟩

/-- A fully configured agent: two tools and a prompt template. -/
def agentT : Agent :=
  mkAgent "m" Option.none (some [echoTool, boomTool]) Option.none
    (some "Summarize: {text}") Option.none

/-- An agent whose prompt template is configured but empty. -/
def agentEmptyTemplate : Agent :=
  mkAgent "m" Option.none Option.none Option.none (some "") Option.none

/-- An agent with a one-placeholder template. -/
def agentW : Agent :=
  mkAgent "m" Option.none Option.none Option.none (some "{text}") Option.none

def sysMsg : Message := ⟨"system", some "sys", [], Option.none⟩

def asstMsg (s : String) : Message := ⟨"assistant", some s, [], Option.none⟩

/-- An assistant round requesting one `echo` call with well-formed arguments. -/
def toolRound : Message :=
  ⟨"assistant", Option.none, [⟨"id1", "echo", "\x7b\"x\": \"hi\"\x7d"⟩], Option.none⟩

/-- The tool message `toolRound` resolves to. -/
def echoResult : Message := ⟨"tool", some "echo hi", [], some "id1"⟩

/-- Streaming emission of `toolRound`: the call arrives in two fragments
whose argument texts concatenate. -/
def toolChunks : List Delta :=
  [⟨Option.none, [⟨0, "id1", "echo", "\x7b\"x\": "⟩]⟩,
   ⟨Option.none, [⟨0, "", "", "\"hi\"\x7d"⟩]⟩]

/-- Streaming emission of `asstMsg "done"` in two content fragments. -/
def doneChunks : List Delta := [⟨some "do", []⟩, ⟨some "ne", []⟩]

/-! ## Helper lemmas -/

theorem strNilAppend (s : String) : "" ++ s = s :=
  String.ext (by simp [String.data_append])

theorem strAppendAssoc (a b c : String) : a ++ b ++ c = a ++ (b ++ c) :=
  String.ext (by simp [String.data_append])

theorem joinFoldl (l : List String) :
    ∀ init : String, l.foldl (fun r s => r ++ s) init = init ++ String.join l := by
  induction l with
  | nil =>
    intro init
    simp [String.join]
  | cons a l ih =>
    intro init
    simp only [List.foldl_cons, String.join] at *
    rw [ih (init ++ a), ih ("" ++ a), strNilAppend, strAppendAssoc]

theorem joinAppend (a b : List String) :
    String.join (a ++ b) = String.join a ++ String.join b := by
  simp only [String.join, List.foldl_append]
  rw [joinFoldl b (a.foldl (fun r s => r ++ s) "")]
  simp [String.join]

theorem contentOfLastConcat (ctx : List Message) (m : Message) :
    contentOfLast (ctx ++ [m]) = m.content.getD "" := by
  simp [contentOfLast, List.getLast?_concat]

/-! Unfolding equations for the recursive run functions (stated once so
that proofs never unfold the recursive definitions with `simp`). -/

theorem handleToolCalls_no_calls (agent : Agent) (script : List Message)
    (m : Message) (ctx : List Message) (h : m.tool_calls.isEmpty = true) :
    handleToolCalls agent script m ctx = .ok ⟨[], ctx ++ [m]⟩ := by
  rw [handleToolCalls, if_pos h]

theorem handleToolCalls_calls_err (agent : Agent) (script : List Message)
    (m : Message) (ctx : List Message) (e : AgentError)
    (h : m.tool_calls.isEmpty = false)
    (hc : callTools agent m.tool_calls = .error e) :
    handleToolCalls agent script m ctx = .error e := by
  rw [handleToolCalls, if_neg (by simp [h]), hc]

theorem handleToolCalls_calls_nil (agent : Agent) (m : Message)
    (ctx : List Message) (tms : List Message)
    (h : m.tool_calls.isEmpty = false)
    (hc : callTools agent m.tool_calls = .ok tms) :
    handleToolCalls agent [] m ctx = .error .providerExhausted := by
  rw [handleToolCalls, if_neg (by simp [h]), hc]

theorem handleToolCalls_calls_cons (agent : Agent) (m : Message)
    (ctx : List Message) (tms : List Message) (m2 : Message) (rest : List Message)
    (h : m.tool_calls.isEmpty = false)
    (hc : callTools agent m.tool_calls = .ok tms) :
    handleToolCalls agent (m2 :: rest) m ctx =
      match handleToolCalls agent rest m2 ((ctx ++ [m]) ++ tms) with
      | .error e => .error e
      | .ok r => .ok ⟨((ctx ++ [m]) ++ tms) :: r.calls, r.context⟩ := by
  rw [handleToolCalls, if_neg (by simp [h]), hc]

/-- Lemma: `callTools` succeeds exactly when each call resolves, producing the
resolved messages in request order. -/
theorem callTools_ok (agent : Agent) :
    ∀ (calls : List ToolCall) (tms : List Message),
      callTools agent calls = .ok tms →
      tms.length = calls.length ∧
      ∀ i (hi : i < calls.length) (hi2 : i < tms.length),
        resolveToolCall agent (calls.get ⟨i, hi⟩) = .ok (tms.get ⟨i, hi2⟩) := by
  intro calls
  induction calls with
  | nil =>
    intro tms h
    simp only [callTools] at h
    cases h
    exact ⟨rfl, fun i hi _ => absurd hi (by simp)⟩
  | cons tc rest ih =>
    intro tms h
    simp only [callTools] at h
    cases hr : resolveToolCall agent tc with
    | error e => rw [hr] at h; cases h
    | ok msg =>
      rw [hr] at h
      cases hc : callTools agent rest with
      | error e => rw [hc] at h; cases h
      | ok msgs =>
        rw [hc] at h
        cases h
        obtain ⟨hl, hget⟩ := ih msgs hc
        refine ⟨by simp [hl], ?_⟩
        intro i hi hi2
        cases i with
        | zero => simpa using hr
        | succ j =>
          have hj : j < rest.length := by simpa using hi
          have hj2 : j < msgs.length := by simpa using hi2
          simpa using hget j hj hj2

/-- A successfully resolved tool call yields a tool-role message carrying
the call's id and some string content. -/
theorem resolveToolCall_ok_shape (agent : Agent) (tc : ToolCall) (msg : Message)
    (h : resolveToolCall agent tc = .ok msg) :
    msg.role = "tool" ∧ msg.tool_call_id = some tc.id ∧ msg.tool_calls = [] ∧
      ∃ s, msg.content = some s := by
  simp only [resolveToolCall] at h
  cases hl : toolLookup agent.tools tc.name with
  | none => rw [hl] at h; cases h
  | some tool =>
    rw [hl] at h
    cases hj : jsonLoads tc.arguments with
    | error e => rw [hj] at h; cases h
    | ok args =>
      rw [hj] at h
      cases h
      exact ⟨rfl, rfl, rfl, _, rfl⟩

/-- A successful `_handle_tool_calls` run strictly extends the context it
was given. -/
theorem handleToolCalls_extends (agent : Agent) :
    ∀ (script : List Message) (m : Message) (ctx : List Message) (res : RunResult),
      handleToolCalls agent script m ctx = .ok res →
      ∃ suff, res.context = ctx ++ suff ∧ suff ≠ [] := by
  intro script
  induction script with
  | nil =>
    intro m ctx res h
    cases htc : m.tool_calls.isEmpty with
    | true =>
      rw [handleToolCalls_no_calls agent [] m ctx htc] at h
      cases h
      exact ⟨[m], rfl, by simp⟩
    | false =>
      cases hc : callTools agent m.tool_calls with
      | error e => rw [handleToolCalls_calls_err agent [] m ctx e htc hc] at h; cases h
      | ok tms => rw [handleToolCalls_calls_nil agent m ctx tms htc hc] at h; cases h
  | cons m2 rest ih =>
    intro m ctx res h
    cases htc : m.tool_calls.isEmpty with
    | true =>
      rw [handleToolCalls_no_calls agent (m2 :: rest) m ctx htc] at h
      cases h
      exact ⟨[m], rfl, by simp⟩
    | false =>
      cases hc : callTools agent m.tool_calls with
      | error e =>
        rw [handleToolCalls_calls_err agent (m2 :: rest) m ctx e htc hc] at h; cases h
      | ok tms =>
        rw [handleToolCalls_calls_cons agent m ctx tms m2 rest htc hc] at h
        cases hh : handleToolCalls agent rest m2 ((ctx ++ [m]) ++ tms) with
        | error e => rw [hh] at h; cases h
        | ok r =>
          rw [hh] at h
          cases h
          obtain ⟨suff, hs, _⟩ := ih m2 ((ctx ++ [m]) ++ tms) r hh
          exact ⟨[m] ++ tms ++ suff, by simp [hs], by simp⟩

/-- A successful `_handle_tool_calls` run returns a context ending in a
message without tool calls. -/
theorem handleToolCalls_last (agent : Agent) :
    ∀ (script : List Message) (m : Message) (ctx : List Message) (res : RunResult),
      handleToolCalls agent script m ctx = .ok res →
      ∃ mf, res.context.getLast? = some mf ∧ mf.tool_calls = [] := by
  intro script
  induction script with
  | nil =>
    intro m ctx res h
    cases htc : m.tool_calls.isEmpty with
    | true =>
      rw [handleToolCalls_no_calls agent [] m ctx htc] at h
      cases h
      exact ⟨m, by simp [List.getLast?_concat], by simpa using htc⟩
    | false =>
      cases hc : callTools agent m.tool_calls with
      | error e => rw [handleToolCalls_calls_err agent [] m ctx e htc hc] at h; cases h
      | ok tms => rw [handleToolCalls_calls_nil agent m ctx tms htc hc] at h; cases h
  | cons m2 rest ih =>
    intro m ctx res h
    cases htc : m.tool_calls.isEmpty with
    | true =>
      rw [handleToolCalls_no_calls agent (m2 :: rest) m ctx htc] at h
      cases h
      exact ⟨m, by simp [List.getLast?_concat], by simpa using htc⟩
    | false =>
      cases hc : callTools agent m.tool_calls with
      | error e =>
        rw [handleToolCalls_calls_err agent (m2 :: rest) m ctx e htc hc] at h; cases h
      | ok tms =>
        rw [handleToolCalls_calls_cons agent m ctx tms m2 rest htc hc] at h
        cases hh : handleToolCalls agent rest m2 ((ctx ++ [m]) ++ tms) with
        | error e => rw [hh] at h; cases h
        | ok r =>
          rw [hh] at h
          cases h
          simpa using ih m2 ((ctx ++ [m]) ++ tms) r hh

theorem referencedVars_nil : referencedVars [] = [] := rfl

theorem referencedVars_lit (s : String) (rest : List TPart) :
    referencedVars (TPart.lit s :: rest) = referencedVars rest := rfl

theorem referencedVars_var (n : String) (rest : List TPart) :
    referencedVars (TPart.var n :: rest) = n :: referencedVars rest := rfl

/-- Rendering succeeds exactly when every referenced placeholder is present
in the mapping. -/
theorem renderParts_ok_iff (parts : List TPart) (kvs : List (String × String)) :
    (∃ r, renderParts parts kvs = .ok r) ↔
      ∀ n ∈ referencedVars parts, (lookupStr n kvs).isSome = true := by
  induction parts with
  | nil => simp [renderParts, referencedVars_nil]
  | cons p rest ih =>
    cases p with
    | lit s =>
      rw [referencedVars_lit]
      constructor
      · rintro ⟨r, hr⟩
        simp only [renderParts] at hr
        cases hrest : renderParts rest kvs with
        | error e => rw [hrest] at hr; cases hr
        | ok r2 => exact ih.mp ⟨r2, hrest⟩
      · intro hall
        obtain ⟨r2, hr2⟩ := ih.mpr hall
        exact ⟨s ++ r2, by simp only [renderParts]; rw [hr2]; rfl⟩
    | var n =>
      rw [referencedVars_var]
      cases hl : lookupStr n kvs with
      | none =>
        constructor
        · rintro ⟨r, hr⟩
          simp only [renderParts, hl] at hr
          cases hr
        · intro hall
          have := hall n (List.mem_cons_self n _)
          rw [hl] at this
          cases this
      | some v =>
        constructor
        · rintro ⟨r, hr⟩
          simp only [renderParts, hl] at hr
          intro n2 hn2
          rcases List.mem_cons.mp hn2 with h1 | h2
          · subst h1; simp [hl]
          · cases hrest : renderParts rest kvs with
            | error e => rw [hrest] at hr; cases hr
            | ok r2 => exact ih.mp ⟨r2, hrest⟩ n2 h2
        · intro hall
          obtain ⟨r2, hr2⟩ := ih.mpr (fun n2 hn2 => hall n2 (List.mem_cons_of_mem n hn2))
          exact ⟨v ++ r2, by simp only [renderParts, hl]; rw [hr2]; rfl⟩

theorem lookupStr_append_irrelevant (n k : String) (v : String)
    (kvs : List (String × String)) (hne : n ≠ k) :
    lookupStr n (kvs ++ [(k, v)]) = lookupStr n kvs := by
  induction kvs with
  | nil => simp [lookupStr, hne, Ne.symm hne]
  | cons p rest ih =>
    obtain ⟨k2, v2⟩ := p
    by_cases hk : k2 == n
    · simp [lookupStr, hk]
    · simp only [List.cons_append, lookupStr, hk]
      exact ih

/-- Appending a mapping entry for a key the template does not reference
leaves the rendering unchanged (extra keys are ignored). -/
theorem renderParts_extra (parts : List TPart) (kvs : List (String × String))
    (k v : String) (hk : k ∉ referencedVars parts) :
    renderParts parts (kvs ++ [(k, v)]) = renderParts parts kvs := by
  induction parts with
  | nil => simp [renderParts]
  | cons p rest ih =>
    cases p with
    | lit s =>
      rw [referencedVars_lit] at hk
      simp only [renderParts]
      rw [ih hk]
    | var n =>
      rw [referencedVars_var] at hk
      have hn : n ≠ k := fun hnk => hk (by rw [hnk]; exact List.mem_cons_self k _)
      have hk2 : k ∉ referencedVars rest := fun hmem => hk (List.mem_cons_of_mem n hmem)
      simp only [renderParts, lookupStr_append_irrelevant n k v kvs hn]
      cases lookupStr n kvs with
      | none => rfl
      | some v2 => rw [ih hk2]

/-- Running `_handle_tool_calls` on a round with tool calls (all resolved) equals
the recursive `complete_with_context` call on the context extended by the
assistant message and all tool messages, with no new prompt. -/
theorem handleToolCalls_recursion (agent : Agent) (script : List Message)
    (m : Message) (ctx : List Message) (tms : List Message)
    (htc : m.tool_calls.isEmpty = false)
    (hct : callTools agent m.tool_calls = .ok tms) :
    handleToolCalls agent script m ctx =
      completeWithContext agent script (some ((ctx ++ [m]) ++ tms))
        PromptArg.none := by
  cases script with
  | nil =>
    rw [handleToolCalls_calls_nil agent m ctx tms htc hct]
    simp [completeWithContext, completeWithContextGo, defaultContext, buildUserMessage]
  | cons m2 rest =>
    rw [handleToolCalls_calls_cons agent m ctx tms m2 rest htc hct]
    simp only [completeWithContext, completeWithContextGo, defaultContext, buildUserMessage]
    cases h2 : handleToolCalls agent rest m2 ((ctx ++ [m]) ++ tms) with
    | error e => simp [h2]
    | ok r => simp [h2]

/-! ## Claims -/

/-- C8 (amended): `AgentBuilder.build()` fails with a ConfigurationError
("Model must be specified") whenever no model was set, and otherwise
returns an Agent with the accumulated fields where every unset optional
field takes its documented default: empty tool list, no response format,
no prompt template, empty parameter map, default instructions string. -/
theorem c8_builder_contract :
    AgentBuilder.new.build = .error ⟨"Model must be specified"⟩ ∧
    ∀ m : String, ∃ a : Agent,
      (AgentBuilder.new.with_model m).build = .ok a ∧
      a.model = m ∧ a.tools = [] ∧ a.response_format = Option.none ∧
      a.prompt_template = Option.none ∧ a.params = [] ∧
      a.instructions = "You are a helpful and concise assistant." := by
  exact ⟨rfl, fun m => ⟨_, rfl, rfl, rfl, rfl, rfl, rfl, rfl⟩⟩

/-- C8 witness. -/
theorem c8_witness :
    ∃ a : Agent, (AgentBuilder.new.with_model "m").build = .ok a ∧
      a.model = "m" ∧ a.tools = [] ∧ a.response_format = Option.none ∧
      a.prompt_template = Option.none ∧ a.params = [] ∧
      a.instructions = "You are a helpful and concise assistant." :=
  c8_builder_contract.2 "m"

/-- C8 counterexample: the configuration failure's message is
"Model must be specified", not "model must be specified" as claimed. -/
theorem c8_counterexample :
    ¬ ∃ e : ConfigurationError,
      AgentBuilder.new.build = .error e ∧ e.msg = "model must be specified" := by
  rintro ⟨e, he, hm⟩
  rw [show AgentBuilder.new.build = Except.error ⟨"Model must be specified"⟩ from rfl] at he
  injection he with h
  rw [← h] at hm
  exact absurd hm (by decide)

/-- C9 (amended): for a mapping prompt over a well-formed template, the
user message is produced by substituting the mapping's values into the
configured template's named placeholders (extra keys ignored), and the call
fails with a TemplateError in exactly two cases: no prompt template was
configured **or the configured template is empty** (the code's truthiness
test conflates the two), or the mapping lacks a placeholder referenced by
the template. -/
theorem c9_template_rendering (agent : Agent) (kvs : List (String × String))
    (parts : List TPart)
    (hwf : parseTemplate (agent.prompt_template.getD "") = some parts) :
    ((∃ msgs, buildUserMessage agent (PromptArg.map kvs) = .ok msgs) ↔
      (strTruthy agent.prompt_template = true ∧
        ∀ n ∈ referencedVars parts, (lookupStr n kvs).isSome = true)) ∧
    (∀ r, strTruthy agent.prompt_template = true → renderParts parts kvs = .ok r →
      buildUserMessage agent (PromptArg.map kvs) =
        .ok (if r == "" then [] else [⟨"user", some r, [], Option.none⟩])) ∧
    (∀ k v, k ∉ referencedVars parts →
      renderParts parts (kvs ++ [(k, v)]) = renderParts parts kvs) := by
  refine ⟨?_, ?_, ?_⟩
  · cases ht : strTruthy agent.prompt_template with
    | false =>
      simp only [buildUserMessage, ht]
      constructor
      · rintro ⟨msgs, hm⟩; cases hm
      · rintro ⟨h1, -⟩; cases h1
    | true =>
      simp only [buildUserMessage, ht, if_pos, formatStr, hwf, true_and]
      constructor
      · rintro ⟨msgs, hm⟩
        cases hr : renderParts parts kvs with
        | error e => rw [hr] at hm; cases hm
        | ok r => exact (renderParts_ok_iff parts kvs).mp ⟨r, hr⟩
      · intro hall
        obtain ⟨r, hr⟩ := (renderParts_ok_iff parts kvs).mpr hall
        exact ⟨_, by rw [hr]⟩
  · intro r ht hr
    simp only [buildUserMessage, ht, if_pos, formatStr, hwf, hr]
  · exact fun k v hk => renderParts_extra parts kvs k v hk

/-- C9 counterexample: with a configured **empty** template (which
references no placeholder) and an empty mapping, the code still raises the
"no prompt_template" TemplateError, a third failure case beyond the two the
claim allows. -/
theorem c9_counterexample :
    agentEmptyTemplate.prompt_template = some "" ∧
    parseTemplate "" = some [] ∧
    buildUserMessage agentEmptyTemplate (PromptArg.map []) =
      .error .templateNotConfigured :=
  ⟨rfl, rfl, rfl⟩

/-- C9 witness: the rendering contract applied to the one-placeholder
template agent. -/
theorem c9_witness :
    parseTemplate (agentW.prompt_template.getD "") = some [TPart.var "text"] ∧
    (((∃ msgs, buildUserMessage agentW (PromptArg.map [("text", "hello")]) = .ok msgs) ↔
      (strTruthy agentW.prompt_template = true ∧
        ∀ n ∈ referencedVars [TPart.var "text"],
          (lookupStr n [("text", "hello")]).isSome = true)) ∧
    (∀ r, strTruthy agentW.prompt_template = true →
      renderParts [TPart.var "text"] [("text", "hello")] = .ok r →
      buildUserMessage agentW (PromptArg.map [("text", "hello")]) =
        .ok (if r == "" then [] else [⟨"user", some r, [], Option.none⟩])) ∧
    (∀ k v, k ∉ referencedVars [TPart.var "text"] →
      renderParts [TPart.var "text"] ([("text", "hello")] ++ [(k, v)]) =
        renderParts [TPart.var "text"] [("text", "hello")])) :=
  ⟨rfl, c9_template_rendering agentW [("text", "hello")] [TPart.var "text"] rfl⟩

/-- C1: the behaviour of the code at the failing input.  The user prompt
"hi" is sent to the provider (it appears in the recorded provider call),
but the returned context is `[system, assistant]` — the rendered user
message is **not** appended between the input messages and the assistant
message, contradicting the claim (and the method's own docstring). -/
theorem c1_user_message_dropped :
    completeWithContext agentT [asstMsg "hello"] (some [sysMsg]) (PromptArg.str "hi") =
      .ok ⟨[[sysMsg, ⟨"user", some "hi", [], Option.none⟩]], [sysMsg, asstMsg "hello"]⟩ ∧
    ∀ msg ∈ ([sysMsg, asstMsg "hello"] : List Message), msg.role ≠ "user" :=
  ⟨rfl, by decide⟩

/-- C10: when the provider's message carries no tool call, the returned
context is the input context plus exactly the assistant message (length
input + 1, regardless of the provider's text content), and with an absent
context (defaulted to `[system]`) and no prompt the result has exactly
length 2. -/
theorem c10_context_growth (agent : Agent) (m : Message) (rest : List Message)
    (ctx : List Message) (h : m.tool_calls = []) :
    completeWithContext agent (m :: rest) (some ctx) PromptArg.none =
      .ok ⟨[ctx], ctx ++ [m]⟩ ∧
    (ctx ++ [m]).length = ctx.length + 1 ∧
    completeWithContext agent (m :: rest) Option.none PromptArg.none =
      .ok ⟨[[systemMessage agent.instructions]], [systemMessage agent.instructions, m]⟩ ∧
    ([systemMessage agent.instructions, m] : List Message).length = 2 := by
  have htc : m.tool_calls.isEmpty = true := by simp [h]
  refine ⟨?_, by simp, ?_, rfl⟩
  · simp [completeWithContext, completeWithContextGo, defaultContext, buildUserMessage,
      handleToolCalls_no_calls agent rest m ctx htc]
  · simp [completeWithContext, completeWithContextGo, defaultContext, buildUserMessage,
      handleToolCalls_no_calls agent rest m [systemMessage agent.instructions] htc]

/-- C10 witness. -/
theorem c10_witness :
    (asstMsg "x").tool_calls = [] ∧
    (completeWithContext agentT [asstMsg "x"] (some [sysMsg]) PromptArg.none =
        .ok ⟨[[sysMsg]], [sysMsg] ++ [asstMsg "x"]⟩ ∧
      ([sysMsg] ++ [asstMsg "x"]).length = [sysMsg].length + 1 ∧
      completeWithContext agentT [asstMsg "x"] Option.none PromptArg.none =
        .ok ⟨[[systemMessage agentT.instructions]],
             [systemMessage agentT.instructions, asstMsg "x"]⟩ ∧
      ([systemMessage agentT.instructions, asstMsg "x"] : List Message).length = 2) :=
  ⟨rfl, c10_context_growth agentT (asstMsg "x") [] [sysMsg] rfl⟩

/-- C2: in the non-streaming loop, a round whose assistant message carries
N tool calls and resolves cleanly appends exactly one tool message per
call — same order, each carrying that call's `tool_call_id` and its
resolved (success-or-error) content — all produced before the loop recurses
into another completion round with the extended context and no new prompt;
a round with no tool calls terminates the loop with the context ending in
that message, and every successful run's context ends in an assistant
message with an empty tool-call list. -/
theorem c2_tool_resolution_loop (agent : Agent) (script : List Message)
    (m : Message) (ctx : List Message) :
    (∀ tms, m.tool_calls ≠ [] → callTools agent m.tool_calls = .ok tms →
      tms.length = m.tool_calls.length ∧
      (∀ i (hi : i < m.tool_calls.length) (hi2 : i < tms.length),
        resolveToolCall agent (m.tool_calls.get ⟨i, hi⟩) = .ok (tms.get ⟨i, hi2⟩) ∧
        (tms.get ⟨i, hi2⟩).role = "tool" ∧
        (tms.get ⟨i, hi2⟩).tool_call_id = some (m.tool_calls.get ⟨i, hi⟩).id) ∧
      handleToolCalls agent script m ctx =
        completeWithContext agent script (some ((ctx ++ [m]) ++ tms))
          PromptArg.none) ∧
    (m.tool_calls = [] → handleToolCalls agent script m ctx = .ok ⟨[], ctx ++ [m]⟩) ∧
    (∀ res, handleToolCalls agent script m ctx = .ok res →
      ∃ mf, res.context.getLast? = some mf ∧ mf.tool_calls = []) := by
  refine ⟨?_, ?_, ?_⟩
  · intro tms hne hct
    have htc : m.tool_calls.isEmpty = false := by
      cases hmt : m.tool_calls with
      | nil => exact absurd hmt hne
      | cons a b => rfl
    obtain ⟨hlen, hget⟩ := callTools_ok agent m.tool_calls tms hct
    refine ⟨hlen, ?_, handleToolCalls_recursion agent script m ctx tms htc hct⟩
    intro i hi hi2
    have hr := hget i hi hi2
    obtain ⟨h1, h2, -, -⟩ :=
      resolveToolCall_ok_shape agent (m.tool_calls.get ⟨i, hi⟩) (tms.get ⟨i, hi2⟩) hr
    exact ⟨hr, h1, h2⟩
  · intro h
    exact handleToolCalls_no_calls agent script m ctx (by simp [h])
  · exact fun res h => handleToolCalls_last agent script m ctx res h

/-- C2 witness. -/
theorem c2_witness :
    toolRound.tool_calls ≠ [] ∧
    callTools agentT toolRound.tool_calls = .ok [echoResult] ∧
    ([echoResult].length = toolRound.tool_calls.length ∧
      (∀ i (hi : i < toolRound.tool_calls.length) (hi2 : i < [echoResult].length),
        resolveToolCall agentT (toolRound.tool_calls.get ⟨i, hi⟩) =
          .ok ([echoResult].get ⟨i, hi2⟩) ∧
        ([echoResult].get ⟨i, hi2⟩).role = "tool" ∧
        ([echoResult].get ⟨i, hi2⟩).tool_call_id =
          some (toolRound.tool_calls.get ⟨i, hi⟩).id) ∧
      handleToolCalls agentT [asstMsg "done"] toolRound [sysMsg] =
        completeWithContext agentT [asstMsg "done"]
          (some (([sysMsg] ++ [toolRound]) ++ [echoResult])) PromptArg.none) :=
  ⟨by decide, rfl,
    (c2_tool_resolution_loop agentT [asstMsg "done"] toolRound [sysMsg]).1
      [echoResult] (by decide) rfl⟩

/-- C3 (amended): a tool call naming a function absent from the registry
fails loudly with the registry KeyError (the spec's ToolResolutionError)
and is never silently skipped.  A tool call whose raw argument payload is
**not valid JSON** raises the deserialization error outside the
execution-failure handler, so it propagates and aborts the whole exchange
instead of being surfaced to the model as the tool result; only a payload
that is valid JSON but not a mapping is treated as a tool execution
failure surfaced to the model. -/
theorem c3_argument_failures (agent : Agent) (tc : ToolCall) (rest : List ToolCall) :
    (toolLookup agent.tools tc.name = Option.none →
      callTools agent (tc :: rest) = .error (.toolResolutionError tc.name)) ∧
    (∀ tool e, toolLookup agent.tools tc.name = some tool →
      jsonLoads tc.arguments = .error e →
      callTools agent (tc :: rest) = .error (.jsonDecodeError e) ∧
      ∀ (script : List Message) (m : Message) (ctx : List Message),
        m.tool_calls = tc :: rest →
        handleToolCalls agent script m ctx = .error (.jsonDecodeError e)) ∧
    (∀ tool args, toolLookup agent.tools tc.name = some tool →
      jsonLoads tc.arguments = .ok args → (∀ kvs, args ≠ JTop.obj kvs) →
      resolveToolCall agent tc =
        .ok ⟨"tool",
          some ("Error executing tool: " ++ "argument after ** must be a mapping"),
          [], some tc.id⟩) := by
  refine ⟨?_, ?_, ?_⟩
  · intro h
    simp only [callTools, resolveToolCall, h]
  · intro tool e hl hj
    have hcall : callTools agent (tc :: rest) = .error (.jsonDecodeError e) := by
      simp only [callTools, resolveToolCall, hl, hj]
    refine ⟨hcall, ?_⟩
    intro script m ctx hm
    have htc : m.tool_calls.isEmpty = false := by rw [hm]; rfl
    exact handleToolCalls_calls_err agent script m ctx (.jsonDecodeError e) htc
      (by rw [hm]; exact hcall)
  · intro tool args hl hj hobj
    simp only [resolveToolCall, hl, hj]
    cases args with
    | obj kvs => exact absurd rfl (hobj kvs)
    | arr xs => rfl
    | scalar v => rfl

/-- C3 counterexample: a tool call whose named function exists but whose
argument payload is not valid JSON makes `_call_tools` raise instead of
producing tool messages, so the failure is not surfaced to the model as the
claim states. -/
theorem c3_counterexample :
    toolLookup agentT.tools "echo" = some echoTool ∧
    jsonLoads "oops" = .error "Expecting value" ∧
    ¬ ∃ msgs, callTools agentT [⟨"id1", "echo", "oops"⟩] = .ok msgs := by
  refine ⟨rfl, rfl, ?_⟩
  rintro ⟨msgs, h⟩
  rw [show callTools agentT [(⟨"id1", "echo", "oops"⟩ : ToolCall)] =
      .error (.jsonDecodeError "Expecting value") from rfl] at h
  cases h

/-- C3 witness. -/
theorem c3_witness :
    toolLookup agentT.tools "nosuch" = Option.none ∧
    (callTools agentT [⟨"id9", "nosuch", "\x7b\x7d"⟩] =
      .error (.toolResolutionError "nosuch")) :=
  ⟨rfl,
    (c3_argument_failures agentT ⟨"id9", "nosuch", "\x7b\x7d"⟩ []).1 rfl⟩

/-- C4: a tool function that raises during execution does not propagate the
exception: it is caught (the `logger.debug` call is an unobservable side
effect of the handler) and the tool message's content is the string
"Error executing tool:" followed by the error message; the loop continues
into the next completion round, and the caller of `complete` receives the
final response rather than the exception. -/
theorem c4_execution_error_isolated (agent : Agent) (tc : ToolCall) (tool : Tool)
    (kvs : List (String × JVal)) (e : String)
    (hl : toolLookup agent.tools tc.name = some tool)
    (hj : jsonLoads tc.arguments = .ok (JTop.obj kvs))
    (hf : tool.fn kvs = .error e) :
    resolveToolCall agent tc =
      .ok ⟨"tool", some ("Error executing tool: " ++ e), [], some tc.id⟩ ∧
    ("Error executing tool: " ++ e) = "Error executing tool:" ++ (" " ++ e) ∧
    (∀ (script : List Message) (m : Message) (ctx : List Message),
      m.tool_calls = [tc] →
      handleToolCalls agent script m ctx =
        completeWithContext agent script
          (some ((ctx ++ [m]) ++
            [⟨"tool", some ("Error executing tool: " ++ e), [], some tc.id⟩]))
          PromptArg.none) ∧
    (∀ (m mf : Message), m.tool_calls = [tc] → mf.tool_calls = [] →
      complete agent [m, mf] (PromptArg.str "q") = .ok mf.content) := by
  have hres : resolveToolCall agent tc =
      .ok ⟨"tool", some ("Error executing tool: " ++ e), [], some tc.id⟩ := by
    simp only [resolveToolCall, hl, hj, executeToolCall, hf]
  have hct : callTools agent [tc] =
      .ok [⟨"tool", some ("Error executing tool: " ++ e), [], some tc.id⟩] := by
    simp only [callTools, hres]
  refine ⟨hres, ?_, ?_, ?_⟩
  · rw [show ("Error executing tool: " : String) = "Error executing tool:" ++ " " from rfl,
      strAppendAssoc]
  · intro script m ctx hm
    have htc : m.tool_calls.isEmpty = false := by rw [hm]; rfl
    exact handleToolCalls_recursion agent script m ctx _ htc (by rw [hm]; exact hct)
  · intro m mf hm hmf
    have htc : m.tool_calls.isEmpty = false := by rw [hm]; rfl
    have hct2 : callTools agent m.tool_calls =
        .ok [⟨"tool", some ("Error executing tool: " ++ e), [], some tc.id⟩] := by
      rw [hm]; exact hct
    have hmfe : mf.tool_calls.isEmpty = true := by rw [hmf]; rfl
    simp only [complete, completeWithContext, completeWithContextGo, defaultContext,
      buildUserMessage]
    rw [handleToolCalls_calls_cons agent m [systemMessage agent.instructions]
      [⟨"tool", some ("Error executing tool: " ++ e), [], some tc.id⟩] mf [] htc hct2]
    rw [handleToolCalls_no_calls agent [] mf _ hmfe]
    simp [getFinalResponse, List.getLast?_concat]

/-- C4 witness. -/
theorem c4_witness :
    toolLookup agentT.tools "boom" = some boomTool ∧
    jsonLoads "\x7b\x7d" = .ok (JTop.obj []) ∧
    boomTool.fn [] = .error "boom failed" ∧
    resolveToolCall agentT ⟨"id2", "boom", "\x7b\x7d"⟩ =
      .ok ⟨"tool", some ("Error executing tool: " ++ "boom failed"), [],
        some "id2"⟩ :=
  ⟨rfl, rfl, rfl,
    (c4_execution_error_isolated agentT ⟨"id2", "boom", "\x7b\x7d"⟩ boomTool [] "boom failed"
      rfl rfl rfl).1⟩

/-- C6: the non-streaming `complete_with_context` returns a strictly
extending copy of its input context: the input appears unchanged, in
order, as a prefix of the output (the embedding is pure; the code builds
`context + [message]` etc. and never mutates the input list). -/
theorem c6_context_is_extended (agent : Agent) (script : List Message)
    (ctx : List Message) (prompt : PromptArg) (res : RunResult)
    (h : completeWithContext agent script (some ctx) prompt = .ok res) :
    ∃ suff, res.context = ctx ++ suff ∧ suff ≠ [] ∧
      ctx.length < res.context.length := by
  cases hu : buildUserMessage agent prompt with
  | error e =>
    simp only [completeWithContext, completeWithContextGo, defaultContext, hu] at h
    cases h
  | ok um =>
    cases script with
    | nil =>
      simp only [completeWithContext, completeWithContextGo, defaultContext, hu] at h
      cases h
    | cons m rest =>
      simp only [completeWithContext, completeWithContextGo, defaultContext, hu] at h
      cases hh : handleToolCalls agent rest m ctx with
      | error e => rw [hh] at h; simp at h
      | ok r =>
        rw [hh] at h
        simp only [Except.ok.injEq] at h
        obtain ⟨suff, hs, hne⟩ := handleToolCalls_extends agent rest m ctx r hh
        refine ⟨suff, ?_, hne, ?_⟩
        · rw [← h, hs]
        · rw [← h, hs]
          simp only [List.length_append]
          have := List.length_pos.mpr hne
          omega

/-- C6 witness. -/
theorem c6_witness :
    completeWithContext agentT [asstMsg "hello"] (some [sysMsg]) (PromptArg.str "hi") =
      .ok ⟨[[sysMsg, ⟨"user", some "hi", [], Option.none⟩]], [sysMsg, asstMsg "hello"]⟩ ∧
    ∃ suff, ([sysMsg, asstMsg "hello"] : List Message) = [sysMsg] ++ suff ∧ suff ≠ [] ∧
      ([sysMsg] : List Message).length < ([sysMsg, asstMsg "hello"] : List Message).length :=
  ⟨rfl, c6_context_is_extended agentT [asstMsg "hello"] [sysMsg] (PromptArg.str "hi") _ rfl⟩

/-! ## Streaming lemmas -/

/-- Once the accumulator is non-empty, a later fragment with truthy content
trips the assertion: the whole chunk loop fails with the protocol error. -/
theorem streamLoop_error_after (d : Delta) (post : List Delta)
    (hc : strTruthy d.content = true) :
    ∀ (pre : List Delta) (acc0 : List ToolCallDelta) (ys : List Delta)
      (acc : List ToolCallDelta),
      streamLoop acc0 pre = .ok (ys, acc) → acc ≠ [] →
      streamLoop acc0 (pre ++ d :: post) = .error .streamProtocolError := by
  intro pre
  induction pre with
  | nil =>
    intro acc0 ys acc h hne
    simp only [streamLoop] at h
    cases h
    have hacc0 : acc0.isEmpty = false := by
      cases acc0 with
      | nil => exact absurd rfl hne
      | cons a b => rfl
    rw [List.nil_append, streamLoop, if_pos (by simp [hc, hacc0])]
  | cons d0 rest ih =>
    intro acc0 ys acc h hne
    rw [streamLoop] at h
    by_cases h1 : (strTruthy d0.content && !acc0.isEmpty) = true
    · rw [if_pos h1] at h; cases h
    · rw [if_neg h1] at h
      cases h2 : d0.tool_calls.isEmpty with
      | true =>
        rw [if_pos h2] at h
        cases hr : streamLoop acc0 rest with
        | error e => rw [hr] at h; cases h
        | ok p =>
          obtain ⟨ys0, acc1⟩ := p
          rw [hr] at h
          simp only [Except.ok.injEq, Prod.mk.injEq] at h
          obtain ⟨hys, hacc1⟩ := h
          rw [List.cons_append, streamLoop, if_neg h1, if_pos h2]
          simp only [ih acc0 ys0 acc (hacc1 ▸ hr) hne]
      | false =>
        rw [if_neg (by simp [h2])] at h
        cases hm : mergeToolCallDeltas acc0 d0.tool_calls with
        | error e => rw [hm] at h; cases h
        | ok acc1 =>
          rw [hm] at h
          rw [List.cons_append, streamLoop, if_neg h1, if_neg (by simp [h2]), hm]
          exact ih acc1 ys acc h hne

/-- C7: in the streaming path, a fragment carrying truthy textual content
that arrives after tool-call fragments have started accumulating fails the
chunk loop — and hence the whole message stream — with the protocol
violation (Python's AssertionError, the spec's StreamProtocolError), rather
than yielding that content or continuing. -/
theorem c7_stream_protocol (agent : Agent) (script : List (List Delta))
    (ctx : List Message) (pre : List Delta) (d : Delta) (post : List Delta)
    (ys : List Delta) (acc : List ToolCallDelta)
    (hpre : streamLoop [] pre = .ok (ys, acc)) (hacc : acc ≠ [])
    (hc : strTruthy d.content = true) :
    streamLoop [] (pre ++ d :: post) = .error .streamProtocolError ∧
    streamMessages agent script (pre ++ d :: post) ctx =
      .error .streamProtocolError := by
  have h1 := streamLoop_error_after d post hc pre [] ys acc hpre hacc
  refine ⟨h1, ?_⟩
  rw [streamMessages]
  simp only [h1]

/-- C7 witness. -/
theorem c7_witness :
    streamLoop [] [⟨Option.none, [⟨0, "id1", "echo", "\x7b\x7d"⟩]⟩] =
      .ok ([], [⟨0, "id1", "echo", "\x7b\x7d"⟩]) ∧
    ([⟨0, "id1", "echo", "\x7b\x7d"⟩] : List ToolCallDelta) ≠ [] ∧
    strTruthy (some "x") = true ∧
    (streamLoop []
        ([⟨Option.none, [⟨0, "id1", "echo", "\x7b\x7d"⟩]⟩] ++
          (⟨some "x", []⟩ : Delta) :: []) = .error .streamProtocolError ∧
      streamMessages agentT []
        ([⟨Option.none, [⟨0, "id1", "echo", "\x7b\x7d"⟩]⟩] ++
          (⟨some "x", []⟩ : Delta) :: []) [] = .error .streamProtocolError) :=
  ⟨rfl, by decide, rfl,
    c7_stream_protocol agentT [] [] _ ⟨some "x", []⟩ [] _ _ rfl (by decide) rfl⟩

/-- Record equality for synthetic assistant messages. -/
theorem messageExt (m : Message) (h1 : m.role = "assistant")
    (h2 : m.content = Option.none) (h3 : m.tool_call_id = Option.none) :
    (⟨"assistant", Option.none, m.tool_calls, Option.none⟩ : Message) = m := by
  cases m
  simp_all

theorem joinBlankCons (l : List String) : String.join ("" :: l) = String.join l := rfl

/-- Deltas that carry no truthy content contribute nothing to the
concatenated stream text. -/
theorem streamText_blank (ys : List Delta)
    (h : ys.all (fun d => !(strTruthy d.content)) = true) :
    String.join (streamContent ys) = "" := by
  induction ys with
  | nil => rfl
  | cons d rest ih =>
    simp only [List.all_cons, Bool.and_eq_true] at h
    obtain ⟨hd, hrest⟩ := h
    cases hc : d.content with
    | none =>
      have he : streamContent (d :: rest) = streamContent rest := by
        simp [streamContent, hc]
      rw [he]
      exact ih hrest
    | some s =>
      have hs : s = "" := by
        rw [hc] at hd
        simp [strTruthy] at hd
        exact hd
      subst hs
      have he : streamContent (d :: rest) = "" :: streamContent rest := by
        simp [streamContent, hc]
      rw [he, joinBlankCons]
      exact ih hrest

theorem streamMessages_no_tools (agent : Agent) (script : List (List Delta))
    (chunks : List Delta) (ctx : List Message) (ys : List Delta)
    (h : streamLoop [] chunks = .ok (ys, [])) :
    streamMessages agent script chunks ctx = .ok ⟨[], ys⟩ := by
  rw [streamMessages]
  simp [h]

theorem streamMessages_tools (agent : Agent) (script : List (List Delta))
    (chunks : List Delta) (ctx : List Message) (ys : List Delta)
    (acc : List ToolCallDelta)
    (h : streamLoop [] chunks = .ok (ys, acc)) (hacc : acc.isEmpty = false) :
    streamMessages agent script chunks ctx =
      match callTools agent (finalizeToolCalls acc) with
      | .error e => .error e
      | .ok toolMessages =>
        match script with
        | [] => .error .providerExhausted
        | chunks2 :: rest =>
          match streamMessages agent rest chunks2
              ((ctx ++ [⟨"assistant", Option.none, finalizeToolCalls acc, Option.none⟩])
                ++ toolMessages) with
          | .error e => .error e
          | .ok r =>
            .ok ⟨((ctx ++ [⟨"assistant", Option.none, finalizeToolCalls acc, Option.none⟩])
                ++ toolMessages) :: r.calls, ys ++ r.yielded⟩ := by
  rw [streamMessages]
  simp [h, hacc]

/-- The streaming counterpart of a no-tool-call round: the chunks are all
yielded and their contents concatenate to the assistant message's content. -/
theorem streamEquivContent (agent : Agent) (sscript : List (List Delta))
    (m : Message) (chunks : List Delta) (ctx : List Message)
    (hf : fragmentsOfB m chunks = true) (htc : m.tool_calls.isEmpty = true) :
    ∃ sres : StreamResult,
      streamMessages agent sscript chunks ctx = .ok sres ∧
      sres.calls = [] ∧
      String.join (streamContent sres.yielded) = contentOfLast (ctx ++ [m]) := by
  unfold fragmentsOfB at hf
  cases hsl : streamLoop [] chunks with
  | error e => rw [hsl] at hf; simp at hf
  | ok p =>
    obtain ⟨ys, acc⟩ := p
    rw [hsl] at hf
    have hf2 : (m.role == "assistant" && m.tool_call_id == Option.none &&
        (if m.tool_calls.isEmpty then
          acc.isEmpty && (String.join (streamContent ys) == m.content.getD "")
        else
          m.content == Option.none && (finalizeToolCalls acc == m.tool_calls) &&
            ys.all (fun d => !(strTruthy d.content)))) = true := hf
    rw [htc] at hf2
    have hf3 : (m.role == "assistant" && m.tool_call_id == Option.none &&
        (acc.isEmpty && (String.join (streamContent ys) == m.content.getD ""))) =
        true := hf2
    simp only [Bool.and_eq_true, beq_iff_eq] at hf3
    obtain ⟨⟨hrole, hid⟩, hacc2, hjoin⟩ := hf3
    have hanil : acc = [] := by
      cases acc with
      | nil => rfl
      | cons a b => simp at hacc2
    subst hanil
    refine ⟨⟨[], ys⟩, streamMessages_no_tools agent sscript chunks ctx ys hsl, rfl, ?_⟩
    rw [contentOfLastConcat]
    exact hjoin

/-- Fragmentation facts for a tool-call round. -/
theorem fragmentsOfB_tool (m : Message) (chunks : List Delta) (ys : List Delta)
    (acc : List ToolCallDelta)
    (hsl : streamLoop [] chunks = .ok (ys, acc))
    (htc : m.tool_calls.isEmpty = false)
    (hf : fragmentsOfB m chunks = true) :
    m.role = "assistant" ∧ m.tool_call_id = Option.none ∧ m.content = Option.none ∧
    finalizeToolCalls acc = m.tool_calls ∧
    ys.all (fun d => !(strTruthy d.content)) = true := by
  unfold fragmentsOfB at hf
  rw [hsl] at hf
  have hf2 : (m.role == "assistant" && m.tool_call_id == Option.none &&
      (if m.tool_calls.isEmpty then
        acc.isEmpty && (String.join (streamContent ys) == m.content.getD "")
      else
        m.content == Option.none && (finalizeToolCalls acc == m.tool_calls) &&
          ys.all (fun d => !(strTruthy d.content)))) = true := hf
  rw [htc] at hf2
  have hf3 : (m.role == "assistant" && m.tool_call_id == Option.none &&
      (m.content == Option.none && (finalizeToolCalls acc == m.tool_calls) &&
        ys.all (fun d => !(strTruthy d.content)))) = true := hf2
  simp only [Bool.and_eq_true, beq_iff_eq] at hf3
  obtain ⟨⟨hrole, hid⟩, ⟨hcontent, hfin⟩, hys⟩ := hf3
  exact ⟨hrole, hid, hcontent, hfin, hys⟩

/-- Core of the streaming/non-streaming equivalence: with the provider
emitting, round by round, a fragmentation of the same assistant messages,
the drained stream makes exactly the provider calls of the non-streaming
run and its concatenated text equals the final message's content. -/
theorem streamEquivCore (agent : Agent) :
    ∀ (script : List Message) (sscript : List (List Delta)) (m : Message)
      (chunks : List Delta) (ctx : List Message) (res : RunResult),
      fragmentsOfB m chunks = true →
      fragScriptB script sscript = true →
      handleToolCalls agent script m ctx = .ok res →
      ∃ sres : StreamResult,
        streamMessages agent sscript chunks ctx = .ok sres ∧
        sres.calls = res.calls ∧
        String.join (streamContent sres.yielded) = contentOfLast res.context := by
  intro script
  induction script with
  | nil =>
    intro sscript m chunks ctx res hf hfs hrun
    cases htc : m.tool_calls.isEmpty with
    | true =>
      rw [handleToolCalls_no_calls agent [] m ctx htc] at hrun
      cases hrun
      exact streamEquivContent agent sscript m chunks ctx hf htc
    | false =>
      cases hct : callTools agent m.tool_calls with
      | error e =>
        rw [handleToolCalls_calls_err agent [] m ctx e htc hct] at hrun; cases hrun
      | ok tms =>
        rw [handleToolCalls_calls_nil agent m ctx tms htc hct] at hrun; cases hrun
  | cons m2 rest ih =>
    intro sscript m chunks ctx res hf hfs hrun
    cases htc : m.tool_calls.isEmpty with
    | true =>
      rw [handleToolCalls_no_calls agent (m2 :: rest) m ctx htc] at hrun
      cases hrun
      exact streamEquivContent agent sscript m chunks ctx hf htc
    | false =>
      cases hsl : streamLoop [] chunks with
      | error e =>
        unfold fragmentsOfB at hf
        rw [hsl] at hf
        simp at hf
      | ok p =>
        obtain ⟨ys, acc⟩ := p
        obtain ⟨hrole, hid, hcontent, hfin, hys⟩ :=
          fragmentsOfB_tool m chunks ys acc hsl htc hf
        have hacc : acc.isEmpty = false := by
          cases hacce : acc with
          | nil =>
            rw [hacce] at hfin
            simp only [finalizeToolCalls, List.map_nil] at hfin
            rw [← hfin] at htc
            simp at htc
          | cons a b => rfl
        have hmsg2 : (⟨"assistant", Option.none, m.tool_calls, Option.none⟩ : Message) = m :=
          messageExt m hrole hcontent hid
        cases hct : callTools agent m.tool_calls with
        | error e =>
          rw [handleToolCalls_calls_err agent (m2 :: rest) m ctx e htc hct] at hrun
          cases hrun
        | ok tms =>
          rw [handleToolCalls_calls_cons agent m ctx tms m2 rest htc hct] at hrun
          cases hh : handleToolCalls agent rest m2 ((ctx ++ [m]) ++ tms) with
          | error e => rw [hh] at hrun; cases hrun
          | ok r =>
            rw [hh] at hrun
            cases hrun
            cases sscript with
            | nil => simp [fragScriptB] at hfs
            | cons chunks2 rest2 =>
              simp only [fragScriptB, Bool.and_eq_true] at hfs
              obtain ⟨hf2, hfs2⟩ := hfs
              obtain ⟨sres2, hsm2, hcalls2, hjoin2⟩ :=
                ih rest2 m2 chunks2 ((ctx ++ [m]) ++ tms) r hf2 hfs2 hh
              refine ⟨⟨((ctx ++ [m]) ++ tms) :: sres2.calls, ys ++ sres2.yielded⟩,
                ?_, ?_, ?_⟩
              · rw [streamMessages_tools agent (chunks2 :: rest2) chunks ctx ys acc hsl hacc]
                rw [hfin, hmsg2, hct]
                simp only [hsm2]
              · simp [hcalls2]
              · have hsc : streamContent (ys ++ sres2.yielded) =
                    streamContent ys ++ streamContent sres2.yielded := by
                  simp [streamContent]
                simp only [hsc, joinAppend, streamText_blank ys hys, strNilAppend]
                exact hjoin2

/-- C5: for every agent, context and prompt, and every provider script whose
streaming rounds fragment the very assistant messages of its non-streaming
rounds (tool-call fragments merged by zero-based index, accumulated calls
finalized into a synthetic assistant message fed into the same resolution
algorithm), the drained stream is indistinguishable from the non-streaming
transcript: both runs make identical provider calls round by round, and
the concatenation of the streamed text content equals the non-streaming
final message's content string. -/
theorem c5_streaming_equivalence (agent : Agent) (script : List Message)
    (sscript : List (List Delta)) (context : Option (List Message))
    (prompt : PromptArg) (res : RunResult)
    (hfs : fragScriptB script sscript = true)
    (hrun : completeWithContext agent script context prompt = .ok res) :
    ∃ sres : StreamResult,
      streamCompleteWithContext agent sscript context prompt = .ok sres ∧
      sres.calls = res.calls ∧
      String.join (streamContent sres.yielded) = contentOfLast res.context := by
  rw [completeWithContext] at hrun
  rw [streamCompleteWithContext]
  cases hu : buildUserMessage agent prompt with
  | error e =>
    rw [completeWithContextGo, hu] at hrun
    cases hrun
  | ok um =>
    cases script with
    | nil =>
      rw [completeWithContextGo, hu] at hrun
      cases hrun
    | cons m mrest =>
      cases sscript with
      | nil => simp [fragScriptB] at hfs
      | cons chunks srest =>
        simp only [fragScriptB, Bool.and_eq_true] at hfs
        obtain ⟨hf, hfs2⟩ := hfs
        simp only [completeWithContextGo, hu] at hrun
        cases hh : handleToolCalls agent mrest m (defaultContext agent context) with
        | error e => rw [hh] at hrun; cases hrun
        | ok r =>
          rw [hh] at hrun
          cases hrun
          obtain ⟨sres, h1, h2, h3⟩ :=
            streamEquivCore agent mrest srest m chunks (defaultContext agent context)
              r hf hfs2 hh
          refine ⟨⟨(defaultContext agent context ++ um) :: sres.calls, sres.yielded⟩,
            ?_, by simp [h2], h3⟩
          simp only [streamCompleteWithContextGo, hu, h1]

/-- C5 witness: a two-round provider (one echo tool call, then content
"done" in two fragments) produces identical transcripts on both paths. -/
theorem c5_witness :
    fragScriptB [toolRound, asstMsg "done"] [toolChunks, doneChunks] = true ∧
    completeWithContext agentT [toolRound, asstMsg "done"] (some []) PromptArg.none =
      .ok ⟨[[], [toolRound, echoResult]], [toolRound, echoResult, asstMsg "done"]⟩ ∧
    ∃ sres : StreamResult,
      streamCompleteWithContext agentT [toolChunks, doneChunks] (some [])
          PromptArg.none = .ok sres ∧
      sres.calls = RunResult.calls
        ⟨[[], [toolRound, echoResult]], [toolRound, echoResult, asstMsg "done"]⟩ ∧
      String.join (streamContent sres.yielded) = contentOfLast
        (RunResult.context
          ⟨[[], [toolRound, echoResult]], [toolRound, echoResult, asstMsg "done"]⟩) :=
  ⟨rfl, rfl,
    c5_streaming_equivalence agentT [toolRound, asstMsg "done"]
      [toolChunks, doneChunks] (some []) PromptArg.none
      ⟨[[], [toolRound, echoResult]], [toolRound, echoResult, asstMsg "done"]⟩
      rfl rfl⟩

end Fllume

